import Mathlib

/-!
Shallow embedding of the ESP32 I2C driver (`src/i2c.rs`) and proofs about it.

Machine integers are modelled as `Nat` with explicit `% 2^w` at the points
where the Rust code performs a width-changing cast or a wrapping operation
(`as u8`, `as u16`, u8/u16 arithmetic).  Register and FIFO side effects are
modelled as an explicit event trace.
-/

namespace Esp32I2C

/-- The command opcodes of the I2C command registers (`enum Opcode`). -/
inductive Opcode
  | RSTART
  | WRITE
  | READ
  | STOP
  | END
deriving DecidableEq, Fintype

/-- The discriminant values of `enum Opcode` (RSTART = 0, ..., END = 4). -/
def opcodeVal : Opcode → Nat
  | Opcode.RSTART => 0
  | Opcode.WRITE => 1
  | Opcode.READ => 2
  | Opcode.STOP => 3
  | Opcode.END => 4

/-- Direction of a FIFO access (`enum OperationType`). -/
inductive OperationType
  | WRITE
  | READ
deriving DecidableEq, Fintype

/-- The discriminant values of `enum OperationType` (WRITE = 0, READ = 1). -/
def opTypeVal : OperationType → Nat
  | OperationType.WRITE => 0
  | OperationType.READ => 1

/-- An I2C command (`struct Command`).  The `length` field models
`Option<u8>`; u8 values are Nats below 256. -/
structure Command where
  opcode : Opcode
  ack_value : Bool
  ack_exp : Bool
  ack_check_en : Bool
  length : Option Nat
deriving DecidableEq

/-- The encoding `impl From<Command> for u16`.  `l % 256` models the `u8`
domain of the length; the `&&& (65535 ^^^ ...)` branches are the
`cmd &= !(1 << k)` clears of the source; `% 65536` models the u16 shift. -/
def u16OfCommand (c : Command) : Nat :=
  let cmd : Nat :=
    match c.length with
    | some l => l % 256
    | none => 0
  let cmd := if c.ack_check_en then cmd ||| (1 <<< 8) else cmd &&& (65535 ^^^ (1 <<< 8))
  let cmd := if c.ack_exp then cmd ||| (1 <<< 9) else cmd &&& (65535 ^^^ (1 <<< 9))
  let cmd := if c.ack_value then cmd ||| (1 <<< 10) else cmd &&& (65535 ^^^ (1 <<< 10))
  cmd ||| ((opcodeVal c.opcode <<< 11) % 65536)

/-- Field extraction from an encoded instruction word: low 8 bits. -/
def cmdLengthField (w : Nat) : Nat := w &&& 255

/-- Field extraction: bit 8 (ack_check_en). -/
def cmdAckCheckEn (w : Nat) : Bool := w.testBit 8

/-- Field extraction: bit 9 (ack_exp). -/
def cmdAckExp (w : Nat) : Bool := w.testBit 9

/-- Field extraction: bit 10 (ack_value). -/
def cmdAckValue (w : Nat) : Bool := w.testBit 10

/-- Field extraction: bits 11 and above (opcode). -/
def cmdOpcodeField (w : Nat) : Nat := w >>> 11

/-- Partial inverse of `opcodeVal`. -/
def opcodeOfVal : Nat → Option Opcode
  | 0 => some Opcode.RSTART
  | 1 => some Opcode.WRITE
  | 2 => some Opcode.READ
  | 3 => some Opcode.STOP
  | 4 => some Opcode.END
  | _ => none

set_option maxRecDepth 8192 in
set_option maxHeartbeats 1000000 in
/-- All five fields of an encoded command decode back to the inputs
(finitely quantified form, used to derive the per-claim statements). -/
lemma enc_fields_fin : ∀ (op : Opcode) (v e c : Bool) (l : Fin 256),
    cmdLengthField (u16OfCommand ⟨op, v, e, c, some l.val⟩) = l.val ∧
    cmdAckCheckEn (u16OfCommand ⟨op, v, e, c, some l.val⟩) = c ∧
    cmdAckExp (u16OfCommand ⟨op, v, e, c, some l.val⟩) = e ∧
    cmdAckValue (u16OfCommand ⟨op, v, e, c, some l.val⟩) = v ∧
    opcodeOfVal (cmdOpcodeField (u16OfCommand ⟨op, v, e, c, some l.val⟩)) = some op := by
  decide

/-! ### Peripheral addresses and the FIFO gateway -/

def DPORT_BASE_ADDR : Nat := 0x3FF40000

def AHB_BASE_ADDR : Nat := 0x60000000

def FIFO_OFFSET : Nat := 0x1C

def I2C0_OFFSET : Nat := 0x13000

def I2C1_OFFSET : Nat := 0x27000

def DPORT_I2C0_ADDR : Nat := DPORT_BASE_ADDR + I2C0_OFFSET

def DPORT_I2C1_ADDR : Nat := DPORT_BASE_ADDR + I2C1_OFFSET

def AHB_I2C0_ADDR : Nat := AHB_BASE_ADDR + I2C0_OFFSET

def AHB_I2C1_ADDR : Nat := AHB_BASE_ADDR + I2C1_OFFSET

/-- `I2C::fifo_addr`: the FIFO window address for a direction, on the
instance identified by `is_i2c0` (true for the first instance).  Reads go
through the DPORT window, writes through the AHB window (errata 3.3/3.18). -/
def fifo_addr (is_i2c0 : Bool) (operation_type : OperationType) : Nat :=
  let base_addr :=
    match operation_type, is_i2c0 with
    | OperationType.READ, true => DPORT_I2C0_ADDR
    | OperationType.READ, false => DPORT_I2C1_ADDR
    | OperationType.WRITE, true => AHB_I2C0_ADDR
    | OperationType.WRITE, false => AHB_I2C1_ADDR
  base_addr + FIFO_OFFSET

/-! ### Timing derivation (`I2C::set_frequency`) -/

/-- The values written to the nine timing registers by `set_frequency`. -/
structure TimingProfile where
  scl_low : Nat
  scl_high : Nat
  sda_hold : Nat
  sda_sample : Nat
  scl_rstart_setup : Nat
  scl_stop_setup : Nat
  scl_start_hold : Nat
  scl_stop_hold : Nat
  tout : Nat
deriving DecidableEq

/-- `let half_cycle = ((80_000_000 / freq) / 2) as u16;` — the `as u16`
cast truncates to 16 bits. -/
def half_cycle (freq : Nat) : Nat := ((80000000 / freq) / 2) % 65536

/-- `I2C::set_frequency` as the pure computation of the register values.
`tout` is the u16 product `half_cycle * 20`, which wraps modulo 2^16. -/
def set_frequency (freq : Nat) : TimingProfile :=
  let hc := half_cycle freq
  let scl_low := hc
  let scl_high := hc
  let sda_hold := hc / 2
  let sda_sample := scl_high / 2
  let setup := hc
  let hold := hc
  let tout := (hc * 20) % 65536
  ⟨scl_low, scl_high, sda_hold, sda_sample, setup, setup, hold, hold, tout⟩

/-! ### Transfer operations as event traces -/

/-- `enum Error` (`Transmit` / `Receive`). -/
inductive Error
  | Transmit
  | Receive
deriving DecidableEq

instance : DecidableEq (Except Error Unit) := fun a b =>
  match a, b with
  | Except.ok (), Except.ok () => isTrue rfl
  | Except.error x, Except.error y =>
    if h : x = y then isTrue (by rw [h]) else isFalse (fun hh => h (Except.error.inj hh))
  | Except.ok (), Except.error _ => isFalse (fun hh => Except.noConfusion hh)
  | Except.error _, Except.ok () => isFalse (fun hh => Except.noConfusion hh)

/-- One observable side effect of a transfer operation:  a FIFO reset, a
16-bit word written to command slot `idx`, a byte pushed to a FIFO window,
the transmission-trigger bit being set, a busy-wait on slot `idx`'s done
flag, or a byte popped from a FIFO window. -/
inductive Event
  | resetFifo
  | slotWrite (idx : Nat) (word : Nat)
  | fifoPush (window : Nat) (byte : Nat)
  | transStart
  | waitDone (idx : Nat)
  | fifoPop (window : Nat)
deriving DecidableEq

/-- `I2C::write(addr, bytes)`: the trace of its side effects, in program
order, together with its return value.  `(addr <<< 1) % 256` models the u8
shift `addr << 1`; `(1 + bytes.length % 256) % 256` models
`1 + bytes.len() as u8` in u8 arithmetic. -/
def write (is_i2c0 : Bool) (addr : Nat) (bytes : List Nat) :
    List Event × Except Error Unit :=
  ([Event.resetFifo,
    Event.slotWrite 0 (u16OfCommand ⟨Opcode.RSTART, false, false, false, none⟩),
    Event.fifoPush (fifo_addr is_i2c0 OperationType.WRITE)
      (((addr <<< 1) % 256) ||| opTypeVal OperationType.WRITE)]
   ++ bytes.map (fun b => Event.fifoPush (fifo_addr is_i2c0 OperationType.WRITE) (b % 256))
   ++ [Event.slotWrite 1 (u16OfCommand
        ⟨Opcode.WRITE, false, false, true, some ((1 + bytes.length % 256) % 256)⟩),
      Event.slotWrite 2 (u16OfCommand ⟨Opcode.STOP, false, false, false, none⟩),
      Event.transStart,
      Event.waitDone 0, Event.waitDone 1, Event.waitDone 2],
   Except.ok ())

/-- `I2C::read(addr, buffer)` for a buffer of length `n`.  The failed
assertion `assert!(buffer.len() > 1)` (a panic, before any register or
FIFO access) is modelled as result `none` with an empty trace.  Note the
address byte is pushed through the READ-path window (`fifo_addr` is
computed with `OperationType::READ` in the source).
`(n % 256 + 255) % 256` models `buffer.len() as u8 - 1` in wrapping u8
arithmetic. -/
def read (is_i2c0 : Bool) (addr : Nat) (n : Nat) :
    List Event × Option (Except Error Unit) :=
  if n ≤ 1 then ([], none)
  else
    ([Event.resetFifo,
      Event.slotWrite 0 (u16OfCommand ⟨Opcode.RSTART, false, false, false, none⟩),
      Event.fifoPush (fifo_addr is_i2c0 OperationType.READ)
        (((addr <<< 1) % 256) ||| opTypeVal OperationType.READ),
      Event.slotWrite 1 (u16OfCommand ⟨Opcode.WRITE, false, false, true, some 1⟩),
      Event.slotWrite 2 (u16OfCommand
        ⟨Opcode.READ, true, false, false, some ((n % 256 + 255) % 256)⟩),
      Event.slotWrite 3 (u16OfCommand ⟨Opcode.READ, true, false, false, some 1⟩),
      Event.slotWrite 4 (u16OfCommand ⟨Opcode.STOP, false, false, false, none⟩),
      Event.transStart,
      Event.waitDone 0, Event.waitDone 1, Event.waitDone 2,
      Event.waitDone 3, Event.waitDone 4]
     ++ List.replicate n (Event.fifoPop (fifo_addr is_i2c0 OperationType.READ)),
     some (Except.ok ()))

/-- `I2C::write_then_read(addr, bytes, buffer)` for a buffer of length
`n`: trace of side effects in program order plus the return value.  Slot 3
is written before the slave address byte is pushed, as in the source; the
slave-address push for the read phase goes through the WRITE-path window
(the `fifo_addr` local bound with `OperationType::WRITE`). -/
def write_then_read (is_i2c0 : Bool) (addr : Nat) (bytes : List Nat) (n : Nat) :
    List Event × Except Error Unit :=
  ([Event.resetFifo,
    Event.slotWrite 0 (u16OfCommand ⟨Opcode.RSTART, false, false, false, none⟩),
    Event.fifoPush (fifo_addr is_i2c0 OperationType.WRITE)
      (((addr <<< 1) % 256) ||| opTypeVal OperationType.WRITE)]
   ++ bytes.map (fun b => Event.fifoPush (fifo_addr is_i2c0 OperationType.WRITE) (b % 256))
   ++ [Event.slotWrite 1 (u16OfCommand
        ⟨Opcode.WRITE, false, true, true, some ((1 + bytes.length % 256) % 256)⟩),
      Event.slotWrite 2 (u16OfCommand ⟨Opcode.RSTART, false, false, false, none⟩),
      Event.slotWrite 3 (u16OfCommand ⟨Opcode.WRITE, false, true, true, some 1⟩),
      Event.fifoPush (fifo_addr is_i2c0 OperationType.WRITE)
        (((addr <<< 1) % 256) ||| opTypeVal OperationType.READ)]
   ++ (if 1 < n then
        [Event.slotWrite 4 (u16OfCommand
            ⟨Opcode.READ, true, false, false, some ((n % 256 + 255) % 256)⟩),
         Event.slotWrite 5 (u16OfCommand ⟨Opcode.READ, false, false, false, some 1⟩),
         Event.slotWrite 6 (u16OfCommand ⟨Opcode.STOP, false, false, false, none⟩)]
      else
        [Event.slotWrite 4 (u16OfCommand ⟨Opcode.READ, false, false, false, some 1⟩),
         Event.slotWrite 5 (u16OfCommand ⟨Opcode.STOP, false, false, false, none⟩)])
   ++ [Event.transStart,
      Event.waitDone 0, Event.waitDone 1, Event.waitDone 2,
      Event.waitDone 3, Event.waitDone 4, Event.waitDone 5]
   ++ (if 1 < n then [Event.waitDone 6] else [])
   ++ List.replicate n (Event.fifoPop (fifo_addr is_i2c0 OperationType.READ)),
   Except.ok ())

/-! ### Trace projections -/

/-- The (slot index, word) pairs programmed into command slots, in order. -/
def slotProgram (t : List Event) : List (Nat × Nat) :=
  t.filterMap (fun e =>
    match e with
    | Event.slotWrite i w => some (i, w)
    | _ => none)

/-- The FIFO windows written to by push events, in order. -/
def pushWindows (t : List Event) : List Nat :=
  t.filterMap (fun e =>
    match e with
    | Event.fifoPush w _ => some w
    | _ => none)

/-! ### Theorems -/

/-- C4: for every opcode, every combination of the three acknowledge
flags, and every length in [0, 255], encoding the command to its 16-bit
instruction word and extracting the fields (low 8 bits, bit 8, bit 9,
bit 10, bits 11+) reproduces the opcode, the three flags, and the length
exactly. -/
theorem command_encode_decode_roundtrip (op : Opcode) (v e c : Bool) (l : Nat)
    (hl : l < 256) :
    cmdLengthField (u16OfCommand ⟨op, v, e, c, some l⟩) = l ∧
    cmdAckCheckEn (u16OfCommand ⟨op, v, e, c, some l⟩) = c ∧
    cmdAckExp (u16OfCommand ⟨op, v, e, c, some l⟩) = e ∧
    cmdAckValue (u16OfCommand ⟨op, v, e, c, some l⟩) = v ∧
    opcodeOfVal (cmdOpcodeField (u16OfCommand ⟨op, v, e, c, some l⟩)) = some op :=
  enc_fields_fin op v e c ⟨l, hl⟩

/-- Witness for C4 at opcode WRITE, flags (value := true, exp := false,
check := true), length 77. -/
theorem command_encode_decode_roundtrip_witness :
    cmdLengthField (u16OfCommand ⟨Opcode.WRITE, true, false, true, some 77⟩) = 77 ∧
    cmdAckCheckEn (u16OfCommand ⟨Opcode.WRITE, true, false, true, some 77⟩) = true ∧
    cmdAckExp (u16OfCommand ⟨Opcode.WRITE, true, false, true, some 77⟩) = false ∧
    cmdAckValue (u16OfCommand ⟨Opcode.WRITE, true, false, true, some 77⟩) = true ∧
    opcodeOfVal (cmdOpcodeField (u16OfCommand ⟨Opcode.WRITE, true, false, true, some 77⟩)) =
      some Opcode.WRITE :=
  command_encode_decode_roundtrip Opcode.WRITE true false true 77 (by decide)

/-- C5 counterexample: a STOP command carrying `some 5` as length argument
encodes with low 8 bits equal to 5, not 0 — the encoder never zeroes the
length for RSTART/STOP/END opcodes. -/
theorem encode_stop_some_length_cex :
    cmdLengthField (u16OfCommand ⟨Opcode.STOP, false, false, false, some 5⟩) = 5 ∧
    cmdLengthField (u16OfCommand ⟨Opcode.STOP, false, false, false, some 5⟩) ≠ 0 := by
  decide

/-- C5 amended: for opcodes RSTART, STOP, END with length argument `none`
(as every such command constructed in this driver), the low 8 bits of the
encoded word are zero, for every combination of the acknowledge flags. -/
theorem encode_no_length_zero (op : Opcode) (v e c : Bool)
    (h : op = Opcode.RSTART ∨ op = Opcode.STOP ∨ op = Opcode.END) :
    cmdLengthField (u16OfCommand ⟨op, v, e, c, none⟩) = 0 := by
  rcases h with rfl | rfl | rfl <;> revert v e c <;> decide

/-- Witness for the amended C5 at opcode STOP. -/
theorem encode_no_length_zero_witness :
    (Opcode.STOP = Opcode.RSTART ∨ Opcode.STOP = Opcode.STOP ∨ Opcode.STOP = Opcode.END) ∧
    cmdLengthField (u16OfCommand ⟨Opcode.STOP, true, false, false, none⟩) = 0 :=
  ⟨Or.inr (Or.inl rfl),
   encode_no_length_zero Opcode.STOP true false false (Or.inr (Or.inl rfl))⟩

/-- C7: both FIFO windows of each instance are base address plus the fixed
FIFO offset; per instance the write path and read path differ by the fixed
constant 0x200C0000; and the four window addresses of the two instances
are pairwise distinct across instances. -/
theorem fifo_windows_claim :
    fifo_addr true OperationType.WRITE = AHB_I2C0_ADDR + FIFO_OFFSET ∧
    fifo_addr true OperationType.READ = DPORT_I2C0_ADDR + FIFO_OFFSET ∧
    fifo_addr false OperationType.WRITE = AHB_I2C1_ADDR + FIFO_OFFSET ∧
    fifo_addr false OperationType.READ = DPORT_I2C1_ADDR + FIFO_OFFSET ∧
    fifo_addr true OperationType.WRITE = fifo_addr true OperationType.READ + 0x200C0000 ∧
    fifo_addr false OperationType.WRITE = fifo_addr false OperationType.READ + 0x200C0000 ∧
    fifo_addr true OperationType.WRITE ≠ fifo_addr false OperationType.WRITE ∧
    fifo_addr true OperationType.WRITE ≠ fifo_addr false OperationType.READ ∧
    fifo_addr true OperationType.READ ≠ fifo_addr false OperationType.WRITE ∧
    fifo_addr true OperationType.READ ≠ fifo_addr false OperationType.READ := by
  decide

/-- C6 counterexample: at target frequency 100 Hz the value written to the
scl_low register is not `(80_000_000 / 100) / 2 = 400_000` (the u16 cast
truncates it to 6784), and the value written to the timeout register is
not `half_cycle * 20` computed exactly. -/
theorem set_frequency_truncation_cex :
    (set_frequency 100).scl_low ≠ (80000000 / 100) / 2 ∧
    (set_frequency 100).tout ≠ ((80000000 / 100) / 2) * 20 ∧
    (set_frequency 100).scl_low = 6784 ∧
    (set_frequency 100).tout = 4608 := by
  decide

/-- C6 amended: for every target frequency F with 0 < F ≤ 40 MHz,
`set_frequency` writes scl_low = scl_high = half_cycle, sda_hold =
half_cycle / 2, sda_sample = scl_high / 2, start/stop setup = start/stop
hold = half_cycle, and timeout = (half_cycle * 20) mod 2^16, where
half_cycle is `(80_000_000 / F) / 2` truncated to 16 bits. -/
theorem set_frequency_timings (freq : Nat) (h1 : 0 < freq) (h2 : freq ≤ 40000000) :
    set_frequency freq =
      ⟨half_cycle freq, half_cycle freq, half_cycle freq / 2, half_cycle freq / 2,
       half_cycle freq, half_cycle freq, half_cycle freq, half_cycle freq,
       (half_cycle freq * 20) % 65536⟩ := rfl

/-- Witness for the amended C6 at F = 100_000: half_cycle = 400,
scl_low = scl_high = 400, sda_hold = sda_sample = 200, setup = hold = 400,
timeout = 8000. -/
theorem set_frequency_timings_witness :
    set_frequency 100000 = ⟨400, 400, 200, 200, 400, 400, 400, 400, 8000⟩ :=
  (set_frequency_timings 100000 (by decide) (by decide)).trans (by decide)

/-- C10: half_cycle is `(80_000_000 / F) / 2` truncated to 16 bits, the
timeout register receives `half_cycle * 20` reduced modulo 2^16, and when
half_cycle > 3276 the programmed timeout differs from the exact product
`20 * half_cycle`. -/
theorem set_frequency_timeout_wraps (freq : Nat) (h1 : 0 < freq)
    (h2 : freq ≤ 40000000) (h3 : 3276 < half_cycle freq) :
    half_cycle freq = ((80000000 / freq) / 2) % 65536 ∧
    (set_frequency freq).tout = (half_cycle freq * 20) % 65536 ∧
    (set_frequency freq).tout ≠ 20 * half_cycle freq := by
  refine ⟨rfl, rfl, ?_⟩
  show (half_cycle freq * 20) % 65536 ≠ 20 * half_cycle freq
  have h4 : half_cycle freq < 65536 := by unfold half_cycle; omega
  omega

/-- Witness for C10 at F = 10_000 (half_cycle = 4000 > 3276): the
programmed timeout 14464 differs from 20 * 4000 = 80000. -/
theorem set_frequency_timeout_wraps_witness :
    (0 < 10000 ∧ 10000 ≤ 40000000 ∧ 3276 < half_cycle 10000) ∧
    (set_frequency 10000).tout ≠ 20 * half_cycle 10000 :=
  ⟨⟨by decide, by decide, by decide⟩,
   (set_frequency_timeout_wraps 10000 (by decide) (by decide) (by decide)).2.2⟩

/-! ### Trace lemmas -/

/-- If every staged byte is a u8 value, the `% 256` coercion on pushes is
the identity. -/
lemma map_push_mod (w : Nat) (bytes : List Nat) (hb : ∀ b ∈ bytes, b < 256) :
    bytes.map (fun b => Event.fifoPush w (b % 256)) = bytes.map (Event.fifoPush w) := by
  induction bytes with
  | nil => rfl
  | cons x xs ih =>
    have hx : x % 256 = x := Nat.mod_eq_of_lt (hb x (List.mem_cons_self x xs))
    simp only [List.map_cons, hx]
    rw [ih (fun b hbm => hb b (List.mem_cons_of_mem x hbm))]

lemma slotProgram_append (t1 t2 : List Event) :
    slotProgram (t1 ++ t2) = slotProgram t1 ++ slotProgram t2 := by
  simp [slotProgram]

lemma slotProgram_map_push (w : Nat) (bytes : List Nat) :
    slotProgram (bytes.map (fun b => Event.fifoPush w (b % 256))) = [] := by
  induction bytes with
  | nil => rfl
  | cons x xs ih =>
    simp only [List.map_cons, slotProgram, List.filterMap_cons] at *
    exact ih

lemma slotProgram_replicate_pop (n w : Nat) :
    slotProgram (List.replicate n (Event.fifoPop w)) = [] := by
  induction n with
  | zero => rfl
  | succ k ih =>
    simp only [List.replicate_succ, slotProgram, List.filterMap_cons] at *
    exact ih

/-- C1: `write(a, bytes)` resets the FIFO, programs slot 0 with start,
stages `[a << 1 | 0]` followed by `bytes` into the AHB write-path FIFO
window, programs slot 1 with write (ack_check_en = true, ack_value =
ack_exp = false, length = 1 + len(bytes)) and slot 2 with stop, triggers
transmission, busy-waits on the done flags of slots 0, 1, 2 in that
order, and returns success. -/
theorem write_claim (is_i2c0 : Bool) (addr : Nat) (bytes : List Nat)
    (hb : ∀ b ∈ bytes, b < 256) (hlen : bytes.length ≤ 254) :
    write is_i2c0 addr bytes =
      ([Event.resetFifo,
        Event.slotWrite 0 (u16OfCommand ⟨Opcode.RSTART, false, false, false, none⟩),
        Event.fifoPush (fifo_addr is_i2c0 OperationType.WRITE) ((addr <<< 1) % 256)]
       ++ bytes.map (Event.fifoPush (fifo_addr is_i2c0 OperationType.WRITE))
       ++ [Event.slotWrite 1 (u16OfCommand
            ⟨Opcode.WRITE, false, false, true, some (1 + bytes.length)⟩),
          Event.slotWrite 2 (u16OfCommand ⟨Opcode.STOP, false, false, false, none⟩),
          Event.transStart,
          Event.waitDone 0, Event.waitDone 1, Event.waitDone 2],
       Except.ok ()) ∧
    cmdAckCheckEn (u16OfCommand ⟨Opcode.WRITE, false, false, true, some (1 + bytes.length)⟩)
      = true ∧
    cmdAckExp (u16OfCommand ⟨Opcode.WRITE, false, false, true, some (1 + bytes.length)⟩)
      = false ∧
    cmdAckValue (u16OfCommand ⟨Opcode.WRITE, false, false, true, some (1 + bytes.length)⟩)
      = false ∧
    cmdLengthField (u16OfCommand ⟨Opcode.WRITE, false, false, true, some (1 + bytes.length)⟩)
      = 1 + bytes.length := by
  have hfin := enc_fields_fin Opcode.WRITE false false true ⟨1 + bytes.length, by omega⟩
  refine ⟨?_, hfin.2.1, hfin.2.2.1, hfin.2.2.2.1, hfin.1⟩
  have hm : (1 + bytes.length % 256) % 256 = 1 + bytes.length := by omega
  unfold write
  rw [map_push_mod _ bytes hb, hm]
  simp [opTypeVal]

/-- Witness for C1 at Write(0x50, [0x01, 0x02]) on the first instance:
stages bytes [0xA0, 0x01, 0x02] into the AHB write window 0x6001301C and
programs [start; write(ack_check_en, length = 3); stop] =
[0; 0x903; 0x1800]. -/
theorem write_claim_witness :
    write true 80 [1, 2] =
      ([Event.resetFifo,
        Event.slotWrite 0 0,
        Event.fifoPush 1610690588 160,
        Event.fifoPush 1610690588 1,
        Event.fifoPush 1610690588 2,
        Event.slotWrite 1 2307,
        Event.slotWrite 2 6144,
        Event.transStart,
        Event.waitDone 0, Event.waitDone 1, Event.waitDone 2],
       Except.ok ()) := by
  have h := write_claim true 80 [1, 2] (by decide) (by decide)
  exact h.1.trans (by decide)

/-- C2 counterexample: in `read` the address byte is pushed through the
DPORT read-path window — the only push in the trace of `read` on the
first instance is at `fifo_addr true READ`, which is a different address
from the write-path window `fifo_addr true WRITE` that the claim names. -/
theorem read_push_window_cex :
    pushWindows (read true 80 2).1 = [fifo_addr true OperationType.READ] ∧
    fifo_addr true OperationType.READ ≠ fifo_addr true OperationType.WRITE := by
  decide

/-- C2 amended: for 2 ≤ len(buffer) ≤ 255, `read(a, buffer)` pushes the
single byte `a << 1 | 1` through the FIFO READ-path window (not the
write path), programs the 5-slot sequence [start; write(ack_check_en,
length 1); read(ack_value, length len−1); read(ack_value, length 1);
stop], triggers transmission, busy-waits on the five done flags in slot
order, and pops len(buffer) bytes from the read-path window only after
all slots complete. -/
theorem read_claim (is_i2c0 : Bool) (addr n : Nat) (h2 : 2 ≤ n) (h255 : n ≤ 255) :
    read is_i2c0 addr n =
      ([Event.resetFifo,
        Event.slotWrite 0 (u16OfCommand ⟨Opcode.RSTART, false, false, false, none⟩),
        Event.fifoPush (fifo_addr is_i2c0 OperationType.READ) (((addr <<< 1) % 256) ||| 1),
        Event.slotWrite 1 (u16OfCommand ⟨Opcode.WRITE, false, false, true, some 1⟩),
        Event.slotWrite 2 (u16OfCommand ⟨Opcode.READ, true, false, false, some (n - 1)⟩),
        Event.slotWrite 3 (u16OfCommand ⟨Opcode.READ, true, false, false, some 1⟩),
        Event.slotWrite 4 (u16OfCommand ⟨Opcode.STOP, false, false, false, none⟩),
        Event.transStart,
        Event.waitDone 0, Event.waitDone 1, Event.waitDone 2,
        Event.waitDone 3, Event.waitDone 4]
       ++ List.replicate n (Event.fifoPop (fifo_addr is_i2c0 OperationType.READ)),
       some (Except.ok ())) ∧
    cmdAckValue (u16OfCommand ⟨Opcode.READ, true, false, false, some (n - 1)⟩) = true ∧
    cmdLengthField (u16OfCommand ⟨Opcode.READ, true, false, false, some (n - 1)⟩) = n - 1 := by
  have hfin := enc_fields_fin Opcode.READ true false false ⟨n - 1, by omega⟩
  refine ⟨?_, hfin.2.2.2.1, hfin.1⟩
  have hm : (n % 256 + 255) % 256 = n - 1 := by omega
  unfold read
  rw [if_neg (by omega : ¬ n ≤ 1), hm]
  simp [opTypeVal]

/-- Witness for the amended C2 at read(0x50, 2-byte buffer) on the first
instance: the single push of byte 0xA1 goes to the DPORT read window
0x3FF5301C, the 5 slots are [0; 0x901; 0x1401; 0x1401; 0x1800], and two
pops follow the five waits. -/
theorem read_claim_witness :
    read true 80 2 =
      ([Event.resetFifo,
        Event.slotWrite 0 0,
        Event.fifoPush 1073033244 161,
        Event.slotWrite 1 2305,
        Event.slotWrite 2 5121,
        Event.slotWrite 3 5121,
        Event.slotWrite 4 6144,
        Event.transStart,
        Event.waitDone 0, Event.waitDone 1, Event.waitDone 2,
        Event.waitDone 3, Event.waitDone 4,
        Event.fifoPop 1073033244, Event.fifoPop 1073033244],
       some (Except.ok ())) := by
  have h := read_claim true 80 2 (by decide) (by decide)
  exact h.1.trans (by decide)

/-- C3 counterexample: with a 257-byte buffer, slot 4 of
`write_then_read` is still the 5th of 7 programmed slots, a read with
ack_value = true, but its 8-bit length field is 0 (the wrapped
`buffer.len() as u8 - 1`), not len(buffer) − 1 = 256. -/
theorem write_then_read_len_cex :
    (slotProgram (write_then_read true 0 [] 257).1).length = 7 ∧
    cmdOpcodeField ((slotProgram (write_then_read true 0 [] 257).1).getD 4 (0, 0)).2 =
      opcodeVal Opcode.READ ∧
    cmdAckValue ((slotProgram (write_then_read true 0 [] 257).1).getD 4 (0, 0)).2 = true ∧
    cmdLengthField ((slotProgram (write_then_read true 0 [] 257).1).getD 4 (0, 0)).2 = 0 ∧
    (257 : Nat) - 1 ≠ 0 := by
  decide

/-- C3 amended: `write_then_read` with a 1-byte buffer programs exactly
the 6-slot sequence whose slot 4 is a read with ack_value = false and
length 1 followed by slot 5 = stop; with a buffer of length in [2, 256]
it programs exactly the 7-slot sequence whose slot 4 is a read with
ack_value = true and length = len(buffer) − 1, slot 5 a read with
ack_value = false and length 1, and slot 6 = stop. -/
theorem write_then_read_slots (is_i2c0 : Bool) (addr : Nat) (bytes : List Nat) (n : Nat) :
    (n = 1 →
      slotProgram (write_then_read is_i2c0 addr bytes n).1 =
        [(0, u16OfCommand ⟨Opcode.RSTART, false, false, false, none⟩),
         (1, u16OfCommand
            ⟨Opcode.WRITE, false, true, true, some ((1 + bytes.length % 256) % 256)⟩),
         (2, u16OfCommand ⟨Opcode.RSTART, false, false, false, none⟩),
         (3, u16OfCommand ⟨Opcode.WRITE, false, true, true, some 1⟩),
         (4, u16OfCommand ⟨Opcode.READ, false, false, false, some 1⟩),
         (5, u16OfCommand ⟨Opcode.STOP, false, false, false, none⟩)] ∧
      cmdAckValue (u16OfCommand ⟨Opcode.READ, false, false, false, some 1⟩) = false ∧
      cmdLengthField (u16OfCommand ⟨Opcode.READ, false, false, false, some 1⟩) = 1) ∧
    (2 ≤ n → n ≤ 256 →
      slotProgram (write_then_read is_i2c0 addr bytes n).1 =
        [(0, u16OfCommand ⟨Opcode.RSTART, false, false, false, none⟩),
         (1, u16OfCommand
            ⟨Opcode.WRITE, false, true, true, some ((1 + bytes.length % 256) % 256)⟩),
         (2, u16OfCommand ⟨Opcode.RSTART, false, false, false, none⟩),
         (3, u16OfCommand ⟨Opcode.WRITE, false, true, true, some 1⟩),
         (4, u16OfCommand ⟨Opcode.READ, true, false, false, some (n - 1)⟩),
         (5, u16OfCommand ⟨Opcode.READ, false, false, false, some 1⟩),
         (6, u16OfCommand ⟨Opcode.STOP, false, false, false, none⟩)] ∧
      cmdAckValue (u16OfCommand ⟨Opcode.READ, true, false, false, some (n - 1)⟩) = true ∧
      cmdLengthField (u16OfCommand ⟨Opcode.READ, true, false, false, some (n - 1)⟩) = n - 1) := by
  constructor
  · intro h1
    subst h1
    refine ⟨?_, by decide, by decide⟩
    unfold write_then_read
    rw [if_neg (by omega : ¬ (1 : Nat) < 1)]
    simp [slotProgram_append, slotProgram_map_push, slotProgram_replicate_pop, slotProgram]
  · intro h2 h256
    have hfin := enc_fields_fin Opcode.READ true false false ⟨n - 1, by omega⟩
    refine ⟨?_, hfin.2.2.2.1, hfin.1⟩
    have hm : (n % 256 + 255) % 256 = n - 1 := by omega
    unfold write_then_read
    rw [if_pos (by omega : 1 < n), if_pos (by omega : 1 < n), hm]
    simp [slotProgram_append, slotProgram_map_push, slotProgram_replicate_pop, slotProgram]

/-- Witness for the amended C3 at write_then_read(0x50, [0x09], buffer)
with buffer lengths 1 and 3. -/
theorem write_then_read_slots_witness :
    slotProgram (write_then_read true 80 [9] 1).1 =
      [(0, 0), (1, 2818), (2, 0), (3, 2817), (4, 4097), (5, 6144)] ∧
    slotProgram (write_then_read true 80 [9] 3).1 =
      [(0, 0), (1, 2818), (2, 0), (3, 2817), (4, 5122), (5, 4097), (6, 6144)] := by
  constructor
  · exact ((write_then_read_slots true 80 [9] 1).1 rfl).1.trans (by decide)
  · exact ((write_then_read_slots true 80 [9] 3).2 (by decide) (by decide)).1.trans (by decide)

/-- C8: whenever the three transfer operations run to completion they
return success: `write` and `write_then_read` always return `Ok(())`, and
`read` either panics on its length assertion (result `none`) or returns
`Ok(())`.  Neither `Error::Transmit` nor `Error::Receive` is ever
produced, since no acknowledge status is inspected after completion. -/
theorem transfers_always_ok (is_i2c0 : Bool) (addr : Nat) (bytes : List Nat) (n m : Nat) :
    (write is_i2c0 addr bytes).2 = Except.ok () ∧
    (write_then_read is_i2c0 addr bytes n).2 = Except.ok () ∧
    ((read is_i2c0 addr m).2 = none ∨ (read is_i2c0 addr m).2 = some (Except.ok ())) := by
  refine ⟨rfl, rfl, ?_⟩
  by_cases h : m ≤ 1
  · left
    unfold read
    rw [if_pos h]
  · right
    unfold read
    rw [if_neg h]

/-- C9: calling `read` with a buffer of length 0 or 1 fails the assertion
`buffer.len() > 1` (result `none`) before any command slot or FIFO
address is written (empty trace); with a buffer of length ≥ 2 the
assertion branch is unreachable and `read` returns a value. -/
theorem read_asserts_min_len (is_i2c0 : Bool) (addr n : Nat) :
    (n ≤ 1 → read is_i2c0 addr n = ([], none)) ∧
    (2 ≤ n → (read is_i2c0 addr n).2 = some (Except.ok ())) := by
  constructor
  · intro h
    unfold read
    rw [if_pos h]
  · intro h
    unfold read
    rw [if_neg (by omega : ¬ n ≤ 1)]

/-- Witness for C9 at buffer lengths 1 (assertion failure, empty trace)
and 2 (no assertion failure). -/
theorem read_asserts_min_len_witness :
    read true 0 1 = ([], none) ∧ (read true 0 2).2 = some (Except.ok ()) :=
  ⟨(read_asserts_min_len true 0 1).1 (by decide),
   (read_asserts_min_len true 0 2).2 (by decide)⟩

end Esp32I2C
